import Mathlib

/-!
Shallow embedding of the safe arithmetic expression evaluator of
`src/cal.py` (function `eval_expr` and its helpers `_to_decimal`,
`_to_fraction`, `make_function`, `_eval`, and the tables `OPS`,
`_MATH_FUNCS`, `_CONSTS`), together with theorems checking the
specification's claims about it.

Modelling conventions (documented once here, referenced below):

* Python `float` values are idealised as exact rationals (`ℚ`): none of the
  checked claims depends on IEEE-754 rounding, overflow, or the binary
  representation, only on control flow (division by zero, error classes,
  evaluation order).  Transcendental primitives (`math.sin`, `math.log`,
  `math.sqrt` on non-squares, non-integral powers, `Decimal.sqrt`, ...) have
  no rational value; they are abstracted as an arbitrary structure `Prims` of
  total functions over which every theorem is universally quantified, so no
  theorem depends on the stand-in values.
* Python `Decimal` values are modelled at value level as rationals; the
  context rounding that the `decimal` module applies is made explicit by
  `roundQ` (round to a number of significant digits, half-even, the default
  rounding of the module).  The program never changes the process-global
  decimal context, so global arithmetic runs at the default precision 28
  (`GLOBAL_PREC` below); the context `ctx` built by `eval_expr` from the
  caller's precision is passed around but consulted only by `ctx.sqrt`,
  exactly as in the source.  The digit-sequence/exponent representation
  handed out by `Decimal.as_tuple()` is modelled separately by the
  structure `Dec` for the `_to_fraction` conversion.
* Python `Fraction` values are exact rationals (`ℚ`), a perfect match.
* The `int` results that Python produces for `Fraction // Fraction` are
  modelled as `Fraction` values of denominator 1; this is value-faithful and
  no claim observes the difference.
* Exceptions are modelled by the inductive `Err`.  Constructors carrying a
  comment `EvalError "..."` model `raise EvalError(...)` with that message
  (a single Python class distinguished by its message strings); the
  remaining constructors model distinct host exception classes that the
  source re-raises or lets escape (`ZeroDivisionError` together with its
  subclass `decimal.DivisionByZero`, `decimal.InvalidOperation`,
  `TypeError`, `IndexError`, `ValueError`).  The host-generated message of
  `EvalError(str(e))` in the binary-operator handler carries no information
  used by any claim and is abstracted to the constructor `opFailed`.
* The parser is the host's `ast.parse(expr, mode="eval")`; it is not part of
  the repository.  Its outcome is modelled by `Parsed`: either a
  `SyntaxError` (statements such as `x = 1` are not expressions in eval
  mode) or a Python expression tree.  The tree type `PyExpr` contains
  exactly the node kinds the claims exercise, including the ones the host
  parser accepts but `_eval` rejects (string constants, attribute access,
  subscripting, non-name call targets).
-/

namespace Cal

unseal Rat.mul Rat.add Rat.sub Rat.inv Rat.ofScientific

/-- Abstract transcendental primitives of the host (`math.sin`, `math.cos`,
`math.tan`, `math.log`, two-argument `math.log`, `math.pow` on non-integral
exponents, `math.sqrt`, `Context.sqrt` at a given precision, and
`Decimal.__pow__` with non-integral exponent).  Every theorem below is
quantified over all such structures, so nothing depends on their values. -/
structure Prims where
  sinF : ℚ → ℚ
  cosF : ℚ → ℚ
  tanF : ℚ → ℚ
  logF : ℚ → ℚ
  logBase : ℚ → ℚ → ℚ
  powF : ℚ → ℚ → ℚ
  sqrtF : ℚ → ℚ
  decSqrt : ℕ → ℚ → ℚ
  decPowT : ℚ → ℚ → ℚ

/-- Concrete instance of `Prims` (all stand-ins zero), used only to
instantiate universally quantified theorems at closed inputs. -/
def defaultPrims : Prims :=
  ⟨fun _ => 0, fun _ => 0, fun _ => 0, fun _ => 0, fun _ _ => 0,
   fun _ _ => 0, fun _ => 0, fun _ _ => 0, fun _ _ => 0⟩

/-- Error conditions surfaced by `eval_expr`.  Constructors marked
`EvalError "..."` model `raise EvalError(...)` with the given message from
`src/cal.py`; the others model distinct host exception classes. -/
inductive Err where
  /-- EvalError "Syntaxfehler": `ast.parse` raised `SyntaxError` (line 222). -/
  | synError
  /-- EvalError "Nur Zahlen als Konstanten erlaubt" (line 167). -/
  | nonNumberConst
  /-- EvalError "Nicht unterstützter Operator" (line 174). -/
  | unsupportedOp
  /-- EvalError "Nicht unterstützter Unary-Operator" (line 202). -/
  | unsupportedUnary
  /-- EvalError "Nur einfache Funktionsaufrufe erlaubt" (line 208). -/
  | onlySimpleCalls
  /-- EvalError "Unbekannter Name: {name}" (line 101). -/
  | unknownName (id : String)
  /-- EvalError "Unbekannte Funktion: {name}" (line 111). -/
  | unknownFunction (id : String)
  /-- EvalError "pow mit nicht-ganzzahligem Exponenten im Fraction-Modus
  nicht erlaubt" (line 125). -/
  | powNonIntegral
  /-- EvalError "Funktion {name} nicht im Fraction-Modus unterstützt"
  (line 129). -/
  | unsupportedInFractionMode (fname : String)
  /-- EvalError "Ungültiger Ausdruck" (line 217): the structural fall-through
  of `_eval` for node kinds outside its dispatch table. -/
  | invalidExpr
  /-- EvalError str(e): both coercion retries of the binary-operator handler
  failed (lines 189, 196, 197); the host-generated message is abstracted. -/
  | opFailed
  /-- ZeroDivisionError, including its subclass `decimal.DivisionByZero`;
  re-raised untouched by the binary-operator handler (line 181). -/
  | divisionByZero
  /-- decimal.InvalidOperation escaping the decimal back-end. -/
  | invalidOperation
  /-- TypeError escaping the host (e.g. wrong arity for `math.sin`, or an
  arithmetic operator applied to a Decimal/Fraction mix). -/
  | hostTypeError
  /-- IndexError escaping the host (`args[0]` on an empty argument tuple). -/
  | hostIndexError
  /-- ValueError escaping the host (math domain errors, tuple unpacking of
  the wrong length, `max`/`min` of an empty sequence). -/
  | hostValueError
  deriving DecidableEq

/-- True exactly for the constructors that model `raise EvalError(...)`,
i.e. instances of the program's own `EvalError` class (line 46). -/
def Err.isEvalError : Err → Bool
  | .synError | .nonNumberConst | .unsupportedOp | .unsupportedUnary
  | .onlySimpleCalls | .unknownName _ | .unknownFunction _ | .powNonIntegral
  | .unsupportedInFractionMode _ | .invalidExpr | .opFailed => true
  | .divisionByZero | .invalidOperation | .hostTypeError | .hostIndexError
  | .hostValueError => false

/-- The numeric mode of `eval_expr` (its `mode` parameter).  The spec's
"Rational" mode is the source's `"fraction"` mode.  The source's runtime
check `mode not in ("float", "decimal", "fraction")` is subsumed by this
closed enumeration. -/
inductive Mode where
  | float
  | decimal
  | fraction
  deriving DecidableEq

/-- Runtime values flowing through `_eval`, at value level (see the header
for the idealisations).  `floatV` is a Python `float` (or the `int` a float
operation may produce), `decV` a `Decimal`, `fracV` a `Fraction` (also used
for the `int` results of `Fraction // Fraction`). -/
inductive Value where
  | floatV (q : ℚ)
  | decV (q : ℚ)
  | fracV (q : ℚ)
  deriving DecidableEq

/-- Numeric content of a value; models Python's `float(x)` (exact under the
float idealisation) and value-based cross-type comparison. -/
def toQ : Value → ℚ
  | .floatV q => q
  | .decV q => q
  | .fracV q => q

/-- Default precision of the process-global decimal context, which the
program never modifies: all decimal arithmetic except `ctx.sqrt` runs under
it (see `_to_decimal`, which ignores its `ctx` parameter, and the operator
applications in `_eval`, which use the ambient context). -/
def GLOBAL_PREC : ℕ := 28

/-- Powers of ten as rationals, for exponents of either sign. -/
def pow10 (k : ℤ) : ℚ :=
  if 0 ≤ k then ((10 ^ k.toNat : ℕ) : ℚ) else (((10 ^ (-k).toNat : ℕ) : ℚ))⁻¹

/-- Rounds a rational to the nearest integer, ties to even: the module
default `ROUND_HALF_EVEN` of Python's `decimal`. -/
def roundHalfEven (q : ℚ) : ℤ :=
  let f := Rat.floor q
  let d := q - (f : ℚ)
  if d < 1/2 then f
  else if 1/2 < d then f + 1
  else if f % 2 = 0 then f else f + 1

/-- Number of base-10 digits of `n` minus one (`⌊log10 n⌋` for `n > 0`),
via an explicit fuel so that kernel reduction works. -/
def digLenAux : ℕ → ℕ → ℕ
  | 0, _ => 0
  | fuel + 1, n => if n < 10 then 0 else digLenAux fuel (n / 10) + 1

/-- Adjusted exponent `⌊log10 r⌋` of a positive rational `r`. -/
def adjExp (r : ℚ) : ℤ :=
  let k : ℤ := (digLenAux r.num.natAbs r.num.natAbs : ℤ) - (digLenAux r.den r.den : ℤ)
  if pow10 k ≤ |r| then k else k - 1

/-- Value-level context rounding of Python's `decimal` module: the exact
value `q`, rounded half-even to `prec` significant digits.  Values already
representable in at most `prec` significant digits are returned unchanged. -/
def roundQ (prec : ℕ) (q : ℚ) : ℚ :=
  if q = 0 then 0 else
  let s : ℚ := if q < 0 then -1 else 1
  let r := |q|
  let e : ℤ := adjExp r - prec + 1
  s * (roundHalfEven (r * pow10 (-e)) : ℚ) * pow10 e

/-- Truncation toward zero (Python `int(x)`, `Decimal.__floordiv__`). -/
def qtrunc (q : ℚ) : ℤ := Int.tdiv q.num q.den

/-- The digit-sequence/exponent form `Decimal.as_tuple()` of a finite
decimal: sign bit (true = negative), most-significant-first digit list,
and exponent. -/
structure Dec where
  sign : Bool
  digits : List ℕ
  exponent : ℤ

/-- Digit list folded to a natural number, exactly the loop
`digits = digits * 10 + d` of `_to_fraction` (lines 64-66). -/
def digitsToNat (ds : List ℕ) : ℕ := ds.foldl (fun acc d => acc * 10 + d) 0

/-- Numeric value denoted by an `as_tuple` form. -/
def Dec.value (d : Dec) : ℚ :=
  (if d.sign then -1 else 1) * (digitsToNat d.digits : ℚ) * pow10 d.exponent

/-- Embedding of `_to_fraction` (lines 59-72), `Decimal` branch: rebuilds a
`Fraction` from `tup.digits` and `tup.exponent`.  Note that the source
consults only `tup.digits` and `tup.exponent`; `tup.sign` is never read. -/
def Dec.toFraction (d : Dec) : ℚ :=
  if 0 ≤ d.exponent then ((digitsToNat d.digits * 10 ^ d.exponent.toNat : ℕ) : ℚ)
  else (digitsToNat d.digits : ℚ) / ((10 ^ (-d.exponent).toNat : ℕ) : ℚ)

/-- Value-level embedding of `_to_decimal` (lines 50-56).  A `Decimal` is
returned unchanged; a `Fraction` is converted by
`Decimal(numerator) / Decimal(denominator)`, a division under the ambient
global context (the `ctx` parameter of `_to_decimal` is never used!), hence
rounded to `GLOBAL_PREC` digits; floats go through `Decimal(repr(x))`,
exact under the float idealisation. -/
def toDecimalV : Value → ℚ
  | .decV q => q
  | .fracV q => roundQ GLOBAL_PREC q
  | .floatV q => q

/-- Value-level embedding of `_to_fraction` (lines 59-72) as used inside
evaluation.  On a `Decimal` the sign bit is dropped by the source (see
`Dec.toFraction`), which at value level is the absolute value; `Fraction`
is the identity; `Fraction(float)` is exact. -/
def toFractionV : Value → ℚ
  | .fracV q => q
  | .decV q => |q|
  | .floatV q => q

/-- Binary operators of the `ast` module.  The first seven are the keys of
`OPS` (lines 15-22); the rest exist in Python's grammar but are absent from
`OPS` and therefore rejected by `_eval` (line 173). -/
inductive BOp where
  | add
  | sub
  | mult
  | div
  | floorDiv
  | mod
  | pow
  | lshift
  | rshift
  | bitOr
  | bitXor
  | bitAnd
  | matMult
  deriving DecidableEq

/-- Membership of a binary operator in `OPS` (line 173). -/
def opSupported : BOp → Bool
  | .add | .sub | .mult | .div | .floorDiv | .mod | .pow => true
  | _ => false

/-- Unary operators of the `ast` module; `OPS` contains `USub` and `UAdd`
only (lines 23-24). -/
inductive UOp where
  | usub
  | uadd
  | invert
  | notOp
  deriving DecidableEq

/-- Membership of a unary operator in `OPS` (line 201). -/
def uopSupported : UOp → Bool
  | .usub | .uadd => true
  | _ => false

/-- Python arithmetic on two floats (or a float/Fraction mix, which Python
promotes to float), at exact-rational value level.  Division, floor
division and modulo by zero raise `ZeroDivisionError`, as does `0.0 ** y`
for negative `y`; `**` with a non-integral exponent is transcendental and
abstracted by `Prims.powF`. -/
def floatArith (pr : Prims) (op : BOp) (x y : ℚ) : Except Err ℚ :=
  match op with
  | .add => .ok (x + y)
  | .sub => .ok (x - y)
  | .mult => .ok (x * y)
  | .div => if y = 0 then .error .divisionByZero else .ok (x / y)
  | .floorDiv => if y = 0 then .error .divisionByZero else .ok ((Rat.floor (x / y) : ℤ) : ℚ)
  | .mod => if y = 0 then .error .divisionByZero else .ok (x - ((Rat.floor (x / y) : ℤ) : ℚ) * y)
  | .pow =>
      if x = 0 ∧ y < 0 then .error .divisionByZero
      else if y.den = 1 then .ok (x ^ y.num)
      else .ok (pr.powF x y)
  | _ => .error .hostTypeError

/-- Python arithmetic on two `Decimal`s, at value level: exact result
rounded under the ambient global context (precision `GLOBAL_PREC`; the
program runs the operator applications of `_eval` under the unmodified
global context).  Error behaviour of the `decimal` module: `x / 0` raises
`DivisionByZero` for `x ≠ 0` and `InvalidOperation` for `x = 0`; `x // 0`
likewise; `x % 0` raises `InvalidOperation`; `//` and `%` raise
`InvalidOperation` when the integer quotient needs more digits than the
precision; `0 ** 0` and a negative base with non-integral exponent raise
`InvalidOperation`; `0 ** negative` raises `DivisionByZero`. -/
def decArith (pr : Prims) (op : BOp) (a b : ℚ) : Except Err ℚ :=
  match op with
  | .add => .ok (roundQ GLOBAL_PREC (a + b))
  | .sub => .ok (roundQ GLOBAL_PREC (a - b))
  | .mult => .ok (roundQ GLOBAL_PREC (a * b))
  | .div =>
      if b = 0 then (if a = 0 then .error .invalidOperation else .error .divisionByZero)
      else .ok (roundQ GLOBAL_PREC (a / b))
  | .floorDiv =>
      if b = 0 then (if a = 0 then .error .invalidOperation else .error .divisionByZero)
      else if 10 ^ GLOBAL_PREC ≤ (qtrunc (a / b)).natAbs then .error .invalidOperation
      else .ok ((qtrunc (a / b) : ℤ) : ℚ)
  | .mod =>
      if b = 0 then .error .invalidOperation
      else if 10 ^ GLOBAL_PREC ≤ (qtrunc (a / b)).natAbs then .error .invalidOperation
      else .ok (a - ((qtrunc (a / b) : ℤ) : ℚ) * b)
  | .pow =>
      if b.den = 1 then
        if a = 0 ∧ b < 0 then .error .divisionByZero
        else if a = 0 ∧ b = 0 then .error .invalidOperation
        else .ok (roundQ GLOBAL_PREC (a ^ b.num))
      else if a < 0 then .error .invalidOperation
      else if a = 0 ∧ b < 0 then .error .divisionByZero
      else if a = 0 then .ok 0
      else .ok (pr.decPowT a b)
  | _ => .error .hostTypeError

/-- Direct application `func(left, right)` of an `OPS` operator to two
values (line 179), following Python's dynamic dispatch: float/float and
float/Fraction pairings use float semantics, Fraction/Fraction stays exact
(with `Fraction ** non-integral Fraction` producing a float, Python's
behaviour), Decimal/Decimal uses the decimal back-end, and any
Decimal/float or Decimal/Fraction mix raises `TypeError` — the pairing for
which the coercion retry of `_eval` exists. -/
def directApply (pr : Prims) (op : BOp) (l r : Value) : Except Err Value :=
  match l, r with
  | .decV a, .decV b => (decArith pr op a b).map .decV
  | .decV _, _ => .error .hostTypeError
  | _, .decV _ => .error .hostTypeError
  | .fracV a, .fracV b =>
      match op with
      | .pow =>
          if a = 0 ∧ b < 0 then .error .divisionByZero
          else if b.den = 1 then .ok (.fracV (a ^ b.num))
          else .ok (.floatV (pr.powF a b))
      | _ => (floatArith pr op a b).map .fracV
  | l', r' => (floatArith pr op (toQ l') (toQ r')).map .floatV

/-- Embedding of the binary-operator application of `_eval`
(lines 177-197): apply the operator directly; re-raise a
`ZeroDivisionError` untouched; on any other failure, in decimal and
fraction mode coerce both operands with `_to_decimal` / `_to_fraction` and
retry once, wrapping a second failure (of any kind) as
`EvalError(str(e))`; in float mode wrap the failure immediately. -/
def applyBinOp (pr : Prims) (mode : Mode) (op : BOp) (l r : Value) : Except Err Value :=
  match directApply pr op l r with
  | .ok v => .ok v
  | .error .divisionByZero => .error .divisionByZero
  | .error _ =>
    match mode with
    | .decimal =>
        match directApply pr op (.decV (toDecimalV l)) (.decV (toDecimalV r)) with
        | .ok v => .ok v
        | .error _ => .error .opFailed
    | .fraction =>
        match directApply pr op (.fracV (toFractionV l)) (.fracV (toFractionV r)) with
        | .ok v => .ok v
        | .error _ => .error .opFailed
    | .float => .error .opFailed

/-- Canonical representation of a value in a mode, following §4.3 of the
specification: `float(x)` for float mode, `_to_decimal` for decimal mode,
`_to_fraction` for fraction mode. -/
def toCanon (mode : Mode) (v : Value) : Value :=
  match mode with
  | .float => .floatV (toQ v)
  | .decimal => .decV (toDecimalV v)
  | .fraction => .fracV (toFractionV v)

/-- Modelled from the spec's words (§4.3, claim C3), for comparison with
`applyBinOp`: "apply the operator directly on two same-tagged values first;
only if that direct application fails does the evaluator attempt to coerce
both operands into the active mode's canonical representation and retry
once; if the retry also fails, surface a typed evaluation error."
Division by zero passes through untouched, as §4.3 requires it to stay a
distinct condition. -/
def applyBinOpSpec (pr : Prims) (mode : Mode) (op : BOp) (l r : Value) : Except Err Value :=
  match directApply pr op l r with
  | .ok v => .ok v
  | .error .divisionByZero => .error .divisionByZero
  | .error _ =>
    match directApply pr op (toCanon mode l) (toCanon mode r) with
    | .ok v => .ok v
    | .error _ => .error .opFailed

/-- Unary operator application (line 204).  `operator.neg` on a `Decimal`
applies context rounding (global context); `UAdd` is the identity lambda of
`OPS` and rounds nothing. -/
def applyUnary : UOp → Value → Value
  | .usub, .floatV q => .floatV (-q)
  | .usub, .fracV q => .fracV (-q)
  | .usub, .decV q => .decV (roundQ GLOBAL_PREC (-q))
  | _, v => v

/-- Embedding of `convert_number` (lines 92-97): lift a numeric literal into
the active mode.  `Decimal(str(n))` / `Decimal(repr(f))` construct without
context rounding; under the float idealisation both are value-exact. -/
def convertNumber (mode : Mode) (q : ℚ) : Value :=
  match mode with
  | .float => .floatV q
  | .fraction => .fracV q
  | .decimal => .decV q

/-- Exact value of the binary double `math.pi`. -/
def piFloat : ℚ := 884279719003555 / 281474976710656

/-- Exact value of the binary double `math.e`. -/
def eFloat : ℚ := 6121026514868073 / 2251799813685248

/-- Value of `Decimal(repr(math.pi))`, i.e. `Decimal("3.141592653589793")`:
the shortest round-tripping decimal form, not the double's exact value. -/
def piDec : ℚ := 3141592653589793 / 10 ^ 15

/-- Value of `Decimal(repr(math.e))`. -/
def eDec : ℚ := 2718281828459045 / 10 ^ 15

/-- Embedding of `convert_const` (lines 99-107) with the constants table
`_CONSTS` (lines 40-43): `pi` and `e` are known, any other identifier
raises `EvalError("Unbekannter Name: ...")`. -/
def convertConst (mode : Mode) : String → Except Err Value
  | "pi" =>
      .ok (match mode with
           | .float => .floatV piFloat
           | .fraction => .fracV piFloat
           | .decimal => .decV piDec)
  | "e" =>
      .ok (match mode with
           | .float => .floatV eFloat
           | .fraction => .fracV eFloat
           | .decimal => .decV eDec)
  | id => .error (.unknownName id)

/-- Membership in the function table `_MATH_FUNCS` (lines 27-38), the check
performed by `make_function` (line 110). -/
def isMathFunc : String → Bool
  | "sin" | "cos" | "tan" | "log" | "ln" | "sqrt" | "abs" | "max" | "min" | "pow" => true
  | _ => false

/-- Largest element of a non-empty value list under Python's value-based
ordering, first maximal element on ties: the builtin `max` over a tuple. -/
def valListMax (h : Value) (t : List Value) : Value :=
  t.foldl (fun acc x => if toQ acc < toQ x then x else acc) h

/-- Least element, first minimal on ties: the builtin `min` over a tuple. -/
def valListMin (h : Value) (t : List Value) : Value :=
  t.foldl (fun acc x => if toQ x < toQ acc then x else acc) h

/-- Largest of a non-empty list of rationals (the coerced `max` generator of
the fraction branch). -/
def qListMax (h : ℚ) (t : List ℚ) : ℚ :=
  t.foldl (fun acc x => if acc < x then x else acc) h

/-- Least of a non-empty list of rationals. -/
def qListMin (h : ℚ) (t : List ℚ) : ℚ :=
  t.foldl (fun acc x => if x < acc then x else acc) h

/-- Decimal-mode `pow` with an integral exponent: `a ** int(b)` (line 144),
evaluated under the ambient global context when `a` is a `Decimal`;
`Decimal(0) ** 0` raises `InvalidOperation`, `Decimal(0) ** negative`
raises `DivisionByZero`.  (For completeness the non-`Decimal` bases follow
float / Fraction power semantics; `_eval` never produces them in decimal
mode.) -/
def decPowInt (a : Value) (n : ℤ) : Except Err Value :=
  match a with
  | .decV q =>
      if q = 0 ∧ n < 0 then .error .divisionByZero
      else if q = 0 ∧ n = 0 then .error .invalidOperation
      else .ok (.decV (roundQ GLOBAL_PREC (q ^ n)))
  | .floatV q =>
      if q = 0 ∧ n < 0 then .error .divisionByZero else .ok (.floatV (q ^ n))
  | .fracV q =>
      if q = 0 ∧ n < 0 then .error .divisionByZero else .ok (.fracV (q ^ n))

/-- Embedding of the `wrapper` closure produced by `make_function`
(lines 114-161), dispatching on the active mode and function name; `args`
is the tuple of already-evaluated argument values.  Each branch mirrors the
source, including its arity quirks: extra arguments to the unary decimal
and fraction functions are silently ignored (`args[0]`), an empty argument
tuple raises `IndexError` there, tuple unpacking in `pow` raises
`ValueError` for any length other than 2, float-mode calls of the wrapped
`math` functions raise `TypeError` on wrong arity, and the decimal-mode
`max`/`min` branch returns `max(args)` for both names (line 147). -/
def callFunction (pr : Prims) (mode : Mode) (prec : ℕ) (fname : String)
    (args : List Value) : Except Err Value :=
  match mode with
  | .fraction =>
    match fname with
    | "abs" =>
        match args with
        | [] => .error .hostIndexError
        | a :: _ => .ok (.fracV |toFractionV a|)
    | "max" =>
        match args with
        | [] => .error .hostValueError
        | a :: rest => .ok (.fracV (qListMax (toFractionV a) (rest.map toFractionV)))
    | "min" =>
        match args with
        | [] => .error .hostValueError
        | a :: rest => .ok (.fracV (qListMin (toFractionV a) (rest.map toFractionV)))
    | "pow" =>
        match args with
        | [a, b] =>
            let base := toFractionV a
            let e := toFractionV b
            if e.den ≠ 1 then .error .powNonIntegral
            else if base = 0 ∧ e < 0 then .error .divisionByZero
            else .ok (.fracV (base ^ e.num))
        | _ => .error .hostValueError
    | other => .error (.unsupportedInFractionMode other)
  | .decimal =>
    match fname with
    | "sqrt" =>
        match args with
        | [] => .error .hostIndexError
        | a :: _ =>
            match a with
            | .decV q =>
                if 0 ≤ q then .ok (.decV (pr.decSqrt prec q))
                else .error .hostValueError
            | v => if toQ v < 0 then .error .hostValueError else .ok (.decV (pr.sqrtF (toQ v)))
    | "log" =>
        match args with
        | [] => .error .hostIndexError
        | a :: _ => if toQ a ≤ 0 then .error .hostValueError else .ok (.decV (pr.logF (toQ a)))
    | "ln" =>
        match args with
        | [] => .error .hostIndexError
        | a :: _ => if toQ a ≤ 0 then .error .hostValueError else .ok (.decV (pr.logF (toQ a)))
    | "sin" =>
        match args with
        | [] => .error .hostIndexError
        | a :: _ => .ok (.decV (pr.sinF (toQ a)))
    | "cos" =>
        match args with
        | [] => .error .hostIndexError
        | a :: _ => .ok (.decV (pr.cosF (toQ a)))
    | "tan" =>
        match args with
        | [] => .error .hostIndexError
        | a :: _ => .ok (.decV (pr.tanF (toQ a)))
    | "pow" =>
        match args with
        | [a, b] =>
            match b with
            | .decV qb =>
                if qb.den = 1 then decPowInt a qb.num
                else
                  let x := toQ a
                  if x < 0 then .error .hostValueError
                  else if x = 0 ∧ qb < 0 then .error .hostValueError
                  else .ok (.decV (pr.powF x qb))
            | v =>
                let x := toQ a
                let y := toQ v
                if x = 0 ∧ y < 0 then .error .hostValueError
                else if x < 0 ∧ y.den ≠ 1 then .error .hostValueError
                else if y.den = 1 then .ok (.decV (x ^ y.num))
                else .ok (.decV (pr.powF x y))
        | _ => .error .hostValueError
    | "max" =>
        match args with
        | [] => .error .hostValueError
        | a :: rest => .ok (valListMax a rest)
    | "min" =>
        match args with
        | [] => .error .hostValueError
        | a :: rest => .ok (valListMax a rest)
    | _ =>
        match args with
        | [a] => .ok (.decV |toQ a|)
        | _ => .error .hostTypeError
  | .float =>
    match fname with
    | "sin" =>
        match args with
        | [a] => .ok (.floatV (pr.sinF (toQ a)))
        | _ => .error .hostTypeError
    | "cos" =>
        match args with
        | [a] => .ok (.floatV (pr.cosF (toQ a)))
        | _ => .error .hostTypeError
    | "tan" =>
        match args with
        | [a] => .ok (.floatV (pr.tanF (toQ a)))
        | _ => .error .hostTypeError
    | "log" =>
        match args with
        | [a] => if toQ a ≤ 0 then .error .hostValueError else .ok (.floatV (pr.logF (toQ a)))
        | [a, b] =>
            if toQ a ≤ 0 ∨ toQ b ≤ 0 then .error .hostValueError
            else if toQ b = 1 then .error .divisionByZero
            else .ok (.floatV (pr.logBase (toQ a) (toQ b)))
        | _ => .error .hostTypeError
    | "ln" =>
        match args with
        | [a] => if toQ a ≤ 0 then .error .hostValueError else .ok (.floatV (pr.logF (toQ a)))
        | _ => .error .hostTypeError
    | "sqrt" =>
        match args with
        | [a] => if toQ a < 0 then .error .hostValueError else .ok (.floatV (pr.sqrtF (toQ a)))
        | _ => .error .hostTypeError
    | "pow" =>
        match args with
        | [a, b] =>
            let x := toQ a
            let y := toQ b
            if x = 0 ∧ y < 0 then .error .hostValueError
            else if x < 0 ∧ y.den ≠ 1 then .error .hostValueError
            else if y.den = 1 then .ok (.floatV (x ^ y.num))
            else .ok (.floatV (pr.powF x y))
        | _ => .error .hostTypeError
    | "abs" =>
        match args with
        | [a] =>
            .ok (match a with
                 | .floatV q => .floatV |q|
                 | .fracV q => .fracV |q|
                 | .decV q => .decV (roundQ GLOBAL_PREC |q|))
        | _ => .error .hostTypeError
    | "max" =>
        match args with
        | a :: b :: rest => .ok (valListMax a (b :: rest))
        | _ => .error .hostTypeError
    | "min" =>
        match args with
        | a :: b :: rest => .ok (valListMin a (b :: rest))
        | _ => .error .hostTypeError
    | _ => .error .hostTypeError

mutual
/-- Python expression trees as produced by `ast.parse(-, mode="eval")`,
restricted to the node kinds the claims exercise.  `intConst`/`floatConst`
are `ast.Constant` with an `int`/`float` value (the float carrying the
exact value of the literal token under the float idealisation), `strConst`
an `ast.Constant` carrying a string, `attribute` is `ast.Attribute`
(`a.b`), `subscript` is `ast.Subscript` (`a[0]`); `call` carries an
arbitrary expression in callee position, as `ast.Call` does. -/
inductive PyExpr where
  | intConst (n : ℤ)
  | floatConst (q : ℚ)
  | strConst (s : String)
  | name (id : String)
  | unaryOp (op : UOp) (a : PyExpr)
  | binOp (op : BOp) (l r : PyExpr)
  | call (f : PyExpr) (args : PyArgs)
  | attribute (v : PyExpr) (attr : String)
  | subscript (v : PyExpr) (idx : PyExpr)
/-- Argument list of a call node (`ast.Call.args`). -/
inductive PyArgs where
  | nil
  | cons (a : PyExpr) (rest : PyArgs)
end

/-- Concatenation of argument lists. -/
def PyArgs.append : PyArgs → PyArgs → PyArgs
  | .nil, ys => ys
  | .cons x xs, ys => .cons x (xs.append ys)

mutual
/-- Embedding of `_eval` (lines 163-217): the recursive tree walk.  Each
branch mirrors the source in order: numeric constants are lifted with
`convert_number`, string (and other non-numeric) constants raise
`EvalError`; binary nodes check `OPS` membership, evaluate left then right,
then apply the operator with the coercion policy of `applyBinOp`; unary
nodes check `OPS` and apply; calls reject a non-`Name` callee, resolve the
function (`make_function`, raising for unknown names before any argument
is evaluated), evaluate the arguments left to right and invoke the
wrapper; bare names resolve as constants; any other node kind falls
through to `EvalError("Ungültiger Ausdruck")`. -/
def evalNode (pr : Prims) (mode : Mode) (prec : ℕ) : PyExpr → Except Err Value
  | .intConst n => .ok (convertNumber mode (n : ℚ))
  | .floatConst q => .ok (convertNumber mode q)
  | .strConst _ => .error .nonNumberConst
  | .binOp op l r =>
      if opSupported op then
        match evalNode pr mode prec l with
        | .error e => .error e
        | .ok lv =>
          match evalNode pr mode prec r with
          | .error e => .error e
          | .ok rv => applyBinOp pr mode op lv rv
      else .error .unsupportedOp
  | .unaryOp op a =>
      if uopSupported op then
        match evalNode pr mode prec a with
        | .error e => .error e
        | .ok v => .ok (applyUnary op v)
      else .error .unsupportedUnary
  | .call f args =>
      match f with
      | .name fname =>
          if isMathFunc fname then
            match evalArgs pr mode prec args with
            | .error e => .error e
            | .ok vs => callFunction pr mode prec fname vs
          else .error (.unknownFunction fname)
      | _ => .error .onlySimpleCalls
  | .name id => convertConst mode id
  | .attribute _ _ => .error .invalidExpr
  | .subscript _ _ => .error .invalidExpr
/-- Left-to-right evaluation of a call's argument list
(`tuple(_eval(a) for a in node.args)`, line 211): the first failure
propagates, later arguments are not evaluated. -/
def evalArgs (pr : Prims) (mode : Mode) (prec : ℕ) : PyArgs → Except Err (List Value)
  | .nil => .ok []
  | .cons a rest =>
      match evalNode pr mode prec a with
      | .error e => .error e
      | .ok v =>
        match evalArgs pr mode prec rest with
        | .error e => .error e
        | .ok vs => .ok (v :: vs)
end

/-- Outcome of the host parser `ast.parse(expr, mode="eval")` on the input
string: either a `SyntaxError` (anything that is not a single expression,
e.g. the statement `x = 1`) or an expression tree. -/
inductive Parsed where
  | synErr
  | expr (e : PyExpr)

/-- Embedding of `eval_expr` (lines 75-227) from the parse outcome on: a
`SyntaxError` of `ast.parse` is re-raised as `EvalError("Syntaxfehler")`
(lines 219-222); otherwise the tree body is evaluated by `_eval`.  The
decimal context is built from the caller's precision, defaulting to 28
(lines 85-90); the mode-validity check of line 82 is subsumed by the closed
`Mode` enumeration, and the `ast.Expression` check of line 224 cannot fire
for eval-mode parses. -/
def eval_expr (pr : Prims) (p : Parsed) (mode : Mode) (precision : Option ℕ) :
    Except Err Value :=
  let prec := match precision with
              | some n => n
              | none => 28
  match p with
  | .synErr => .error .synError
  | .expr e => evalNode pr mode prec e

deriving instance DecidableEq for Except

/-- Value tags that evaluation can produce in a mode: float mode produces
floats, decimal mode produces decimals, and fraction mode produces
fractions or — through `Fraction ** non-integral Fraction`, which Python
evaluates to a float — floats. -/
def TagInMode (mode : Mode) (v : Value) : Prop :=
  match mode, v with
  | .float, .floatV _ => True
  | .decimal, .decV _ => True
  | .fraction, .fracV _ => True
  | .fraction, .floatV _ => True
  | _, _ => False

mutual
/-- Big-step evaluation relation mirroring `_eval` (lines 163-217), used to
state determinism of the evaluator as a property rather than an artefact of
a functional definition: each clause lists the outcomes the code can
produce for a node, with the sub-evaluations as relational premises. -/
def EvalRelE (pr : Prims) (mode : Mode) (prec : ℕ) : PyExpr → Except Err Value → Prop
  | .intConst n, res => res = .ok (convertNumber mode (n : ℚ))
  | .floatConst q, res => res = .ok (convertNumber mode q)
  | .strConst _, res => res = .error .nonNumberConst
  | .binOp op l r, res =>
      (opSupported op = false ∧ res = .error .unsupportedOp) ∨
      (opSupported op = true ∧
        ((∃ e, EvalRelE pr mode prec l (.error e) ∧ res = .error e) ∨
         (∃ lv, EvalRelE pr mode prec l (.ok lv) ∧
           ((∃ e, EvalRelE pr mode prec r (.error e) ∧ res = .error e) ∨
            (∃ rv, EvalRelE pr mode prec r (.ok rv) ∧
              res = applyBinOp pr mode op lv rv)))))
  | .unaryOp op a, res =>
      (uopSupported op = false ∧ res = .error .unsupportedUnary) ∨
      (uopSupported op = true ∧
        ((∃ e, EvalRelE pr mode prec a (.error e) ∧ res = .error e) ∨
         (∃ v, EvalRelE pr mode prec a (.ok v) ∧ res = .ok (applyUnary op v))))
  | .call f args, res =>
      match f with
      | .name fname =>
          (isMathFunc fname = false ∧ res = .error (.unknownFunction fname)) ∨
          (isMathFunc fname = true ∧
            ((∃ e, EvalRelA pr mode prec args (.error e) ∧ res = .error e) ∨
             (∃ vs, EvalRelA pr mode prec args (.ok vs) ∧
               res = callFunction pr mode prec fname vs)))
      | _ => res = .error .onlySimpleCalls
  | .name id, res => res = convertConst mode id
  | .attribute _ _, res => res = .error .invalidExpr
  | .subscript _ _, res => res = .error .invalidExpr
/-- Relational counterpart of `evalArgs`: left-to-right evaluation of an
argument list, the first failure propagating. -/
def EvalRelA (pr : Prims) (mode : Mode) (prec : ℕ) : PyArgs → Except Err (List Value) → Prop
  | .nil, res => res = .ok []
  | .cons a rest, res =>
      (∃ e, EvalRelE pr mode prec a (.error e) ∧ res = .error e) ∨
      (∃ v, EvalRelE pr mode prec a (.ok v) ∧
        ((∃ e, EvalRelA pr mode prec rest (.error e) ∧ res = .error e) ∨
         (∃ vs, EvalRelA pr mode prec rest (.ok vs) ∧ res = .ok (v :: vs))))
end

mutual
/-- Determinism of the big-step relation, by mutual structural induction on
the expression: any two results related to the same node coincide. -/
theorem evalRelE_det (pr : Prims) (mode : Mode) (prec : ℕ) :
    ∀ (e : PyExpr) (r1 r2 : Except Err Value),
      EvalRelE pr mode prec e r1 → EvalRelE pr mode prec e r2 → r1 = r2
  | .intConst _, _, _, h1, h2 => by
      simp only [EvalRelE] at h1 h2; rw [h1, h2]
  | .floatConst _, _, _, h1, h2 => by
      simp only [EvalRelE] at h1 h2; rw [h1, h2]
  | .strConst _, _, _, h1, h2 => by
      simp only [EvalRelE] at h1 h2; rw [h1, h2]
  | .name _, _, _, h1, h2 => by
      simp only [EvalRelE] at h1 h2; rw [h1, h2]
  | .attribute _ _, _, _, h1, h2 => by
      simp only [EvalRelE] at h1 h2; rw [h1, h2]
  | .subscript _ _, _, _, h1, h2 => by
      simp only [EvalRelE] at h1 h2; rw [h1, h2]
  | .unaryOp op a, r1, r2, h1, h2 => by
      simp only [EvalRelE] at h1 h2
      rcases h1 with ⟨hns, rfl⟩ | ⟨hs, h1⟩
      · rcases h2 with ⟨_, rfl⟩ | ⟨hs2, _⟩
        · rfl
        · exact Bool.noConfusion (hns ▸ hs2)
      · rcases h2 with ⟨hns2, rfl⟩ | ⟨_, h2⟩
        · exact Bool.noConfusion (hns2 ▸ hs)
        · rcases h1 with ⟨e1, ha1, rfl⟩ | ⟨v1, ha1, rfl⟩
          · rcases h2 with ⟨e2, ha2, rfl⟩ | ⟨v2, ha2, rfl⟩
            · exact evalRelE_det pr mode prec a _ _ ha1 ha2
            · exact absurd (evalRelE_det pr mode prec a _ _ ha1 ha2) (by simp)
          · rcases h2 with ⟨e2, ha2, rfl⟩ | ⟨v2, ha2, rfl⟩
            · exact absurd (evalRelE_det pr mode prec a _ _ ha1 ha2) (by simp)
            · rw [Except.ok.inj (evalRelE_det pr mode prec a _ _ ha1 ha2)]
  | .binOp op l r, r1, r2, h1, h2 => by
      simp only [EvalRelE] at h1 h2
      rcases h1 with ⟨hns, rfl⟩ | ⟨hs, h1⟩
      · rcases h2 with ⟨_, rfl⟩ | ⟨hs2, _⟩
        · rfl
        · exact Bool.noConfusion (hns ▸ hs2)
      · rcases h2 with ⟨hns2, rfl⟩ | ⟨_, h2⟩
        · exact Bool.noConfusion (hns2 ▸ hs)
        · rcases h1 with ⟨e1, hl1, rfl⟩ | ⟨lv1, hl1, h1⟩
          · rcases h2 with ⟨e2, hl2, rfl⟩ | ⟨lv2, hl2, _⟩
            · exact evalRelE_det pr mode prec l _ _ hl1 hl2
            · exact absurd (evalRelE_det pr mode prec l _ _ hl1 hl2) (by simp)
          · rcases h2 with ⟨e2, hl2, rfl⟩ | ⟨lv2, hl2, h2⟩
            · exact absurd (evalRelE_det pr mode prec l _ _ hl1 hl2) (by simp)
            · obtain rfl : lv1 = lv2 :=
                Except.ok.inj (evalRelE_det pr mode prec l _ _ hl1 hl2)
              rcases h1 with ⟨e1, hr1, rfl⟩ | ⟨rv1, hr1, rfl⟩
              · rcases h2 with ⟨e2, hr2, rfl⟩ | ⟨rv2, hr2, rfl⟩
                · exact evalRelE_det pr mode prec r _ _ hr1 hr2
                · exact absurd (evalRelE_det pr mode prec r _ _ hr1 hr2) (by simp)
              · rcases h2 with ⟨e2, hr2, rfl⟩ | ⟨rv2, hr2, rfl⟩
                · exact absurd (evalRelE_det pr mode prec r _ _ hr1 hr2) (by simp)
                · rw [Except.ok.inj (evalRelE_det pr mode prec r _ _ hr1 hr2)]
  | .call (.name fname) args, r1, r2, h1, h2 => by
      simp only [EvalRelE] at h1 h2
      rcases h1 with ⟨hns, rfl⟩ | ⟨hs, h1⟩
      · rcases h2 with ⟨_, rfl⟩ | ⟨hs2, _⟩
        · rfl
        · exact Bool.noConfusion (hns ▸ hs2)
      · rcases h2 with ⟨hns2, rfl⟩ | ⟨_, h2⟩
        · exact Bool.noConfusion (hns2 ▸ hs)
        · rcases h1 with ⟨e1, ha1, rfl⟩ | ⟨vs1, ha1, rfl⟩
          · rcases h2 with ⟨e2, ha2, rfl⟩ | ⟨vs2, ha2, rfl⟩
            · rw [Except.error.inj (evalRelA_det pr mode prec args _ _ ha1 ha2)]
            · exact absurd (evalRelA_det pr mode prec args _ _ ha1 ha2) (by simp)
          · rcases h2 with ⟨e2, ha2, rfl⟩ | ⟨vs2, ha2, rfl⟩
            · exact absurd (evalRelA_det pr mode prec args _ _ ha1 ha2) (by simp)
            · rw [Except.ok.inj (evalRelA_det pr mode prec args _ _ ha1 ha2)]
  | .call (.intConst _) _, _, _, h1, h2 => by
      simp only [EvalRelE] at h1 h2; rw [h1, h2]
  | .call (.floatConst _) _, _, _, h1, h2 => by
      simp only [EvalRelE] at h1 h2; rw [h1, h2]
  | .call (.strConst _) _, _, _, h1, h2 => by
      simp only [EvalRelE] at h1 h2; rw [h1, h2]
  | .call (.unaryOp _ _) _, _, _, h1, h2 => by
      simp only [EvalRelE] at h1 h2; rw [h1, h2]
  | .call (.binOp _ _ _) _, _, _, h1, h2 => by
      simp only [EvalRelE] at h1 h2; rw [h1, h2]
  | .call (.call _ _) _, _, _, h1, h2 => by
      simp only [EvalRelE] at h1 h2; rw [h1, h2]
  | .call (.attribute _ _) _, _, _, h1, h2 => by
      simp only [EvalRelE] at h1 h2; rw [h1, h2]
  | .call (.subscript _ _) _, _, _, h1, h2 => by
      simp only [EvalRelE] at h1 h2; rw [h1, h2]
/-- Determinism for argument lists. -/
theorem evalRelA_det (pr : Prims) (mode : Mode) (prec : ℕ) :
    ∀ (xs : PyArgs) (r1 r2 : Except Err (List Value)),
      EvalRelA pr mode prec xs r1 → EvalRelA pr mode prec xs r2 → r1 = r2
  | .nil, _, _, h1, h2 => by
      simp only [EvalRelA] at h1 h2; rw [h1, h2]
  | .cons a rest, r1, r2, h1, h2 => by
      simp only [EvalRelA] at h1 h2
      rcases h1 with ⟨e1, ha1, rfl⟩ | ⟨v1, ha1, h1⟩
      · rcases h2 with ⟨e2, ha2, rfl⟩ | ⟨v2, ha2, _⟩
        · rw [Except.error.inj (evalRelE_det pr mode prec a _ _ ha1 ha2)]
        · exact absurd (evalRelE_det pr mode prec a _ _ ha1 ha2) (by simp)
      · rcases h2 with ⟨e2, ha2, rfl⟩ | ⟨v2, ha2, h2⟩
        · exact absurd (evalRelE_det pr mode prec a _ _ ha1 ha2) (by simp)
        · obtain rfl : v1 = v2 :=
            Except.ok.inj (evalRelE_det pr mode prec a _ _ ha1 ha2)
          rcases h1 with ⟨e1, hr1, rfl⟩ | ⟨vs1, hr1, rfl⟩
          · rcases h2 with ⟨e2, hr2, rfl⟩ | ⟨vs2, hr2, rfl⟩
            · exact evalRelA_det pr mode prec rest _ _ hr1 hr2
            · exact absurd (evalRelA_det pr mode prec rest _ _ hr1 hr2) (by simp)
          · rcases h2 with ⟨e2, hr2, rfl⟩ | ⟨vs2, hr2, rfl⟩
            · exact absurd (evalRelA_det pr mode prec rest _ _ hr1 hr2) (by simp)
            · rw [Except.ok.inj (evalRelA_det pr mode prec rest _ _ hr1 hr2)]
end

mutual
/-- The functional evaluator realises the big-step relation: the result of
`evalNode` is always related to the node. -/
theorem evalRelE_sound (pr : Prims) (mode : Mode) (prec : ℕ) :
    ∀ e : PyExpr, EvalRelE pr mode prec e (evalNode pr mode prec e)
  | .intConst _ => by simp only [EvalRelE, evalNode]
  | .floatConst _ => by simp only [EvalRelE, evalNode]
  | .strConst _ => by simp only [EvalRelE, evalNode]
  | .name _ => by simp only [EvalRelE, evalNode]
  | .attribute _ _ => by simp only [EvalRelE, evalNode]
  | .subscript _ _ => by simp only [EvalRelE, evalNode]
  | .unaryOp op a => by
      simp only [EvalRelE]
      cases hs : uopSupported op with
      | false => exact Or.inl ⟨rfl, by simp [evalNode, hs]⟩
      | true =>
        refine Or.inr ⟨rfl, ?_⟩
        cases ha : evalNode pr mode prec a with
        | error e =>
            exact Or.inl ⟨e, ha ▸ evalRelE_sound pr mode prec a, by simp [evalNode, hs, ha]⟩
        | ok v =>
            exact Or.inr ⟨v, ha ▸ evalRelE_sound pr mode prec a, by simp [evalNode, hs, ha]⟩
  | .binOp op l r => by
      simp only [EvalRelE]
      cases hs : opSupported op with
      | false => exact Or.inl ⟨rfl, by simp [evalNode, hs]⟩
      | true =>
        refine Or.inr ⟨rfl, ?_⟩
        cases hl : evalNode pr mode prec l with
        | error e =>
            exact Or.inl ⟨e, hl ▸ evalRelE_sound pr mode prec l, by simp [evalNode, hs, hl]⟩
        | ok lv =>
          refine Or.inr ⟨lv, hl ▸ evalRelE_sound pr mode prec l, ?_⟩
          cases hr : evalNode pr mode prec r with
          | error e =>
              exact Or.inl ⟨e, hr ▸ evalRelE_sound pr mode prec r, by simp [evalNode, hs, hl, hr]⟩
          | ok rv =>
              exact Or.inr ⟨rv, hr ▸ evalRelE_sound pr mode prec r, by simp [evalNode, hs, hl, hr]⟩
  | .call (.name fname) args => by
      simp only [EvalRelE]
      cases hs : isMathFunc fname with
      | false => exact Or.inl ⟨rfl, by simp [evalNode, hs]⟩
      | true =>
        refine Or.inr ⟨rfl, ?_⟩
        cases ha : evalArgs pr mode prec args with
        | error e =>
            exact Or.inl ⟨e, ha ▸ evalRelA_sound pr mode prec args, by simp [evalNode, hs, ha]⟩
        | ok vs =>
            exact Or.inr ⟨vs, ha ▸ evalRelA_sound pr mode prec args, by simp [evalNode, hs, ha]⟩
  | .call (.intConst _) _ => by simp only [EvalRelE, evalNode]
  | .call (.floatConst _) _ => by simp only [EvalRelE, evalNode]
  | .call (.strConst _) _ => by simp only [EvalRelE, evalNode]
  | .call (.unaryOp _ _) _ => by simp only [EvalRelE, evalNode]
  | .call (.binOp _ _ _) _ => by simp only [EvalRelE, evalNode]
  | .call (.call _ _) _ => by simp only [EvalRelE, evalNode]
  | .call (.attribute _ _) _ => by simp only [EvalRelE, evalNode]
  | .call (.subscript _ _) _ => by simp only [EvalRelE, evalNode]
/-- The functional argument evaluation realises the list relation. -/
theorem evalRelA_sound (pr : Prims) (mode : Mode) (prec : ℕ) :
    ∀ xs : PyArgs, EvalRelA pr mode prec xs (evalArgs pr mode prec xs)
  | .nil => by simp only [EvalRelA, evalArgs]
  | .cons a rest => by
      simp only [EvalRelA]
      cases ha : evalNode pr mode prec a with
      | error e =>
          exact Or.inl ⟨e, ha ▸ evalRelE_sound pr mode prec a, by simp [evalArgs, ha]⟩
      | ok v =>
        refine Or.inr ⟨v, ha ▸ evalRelE_sound pr mode prec a, ?_⟩
        cases hr : evalArgs pr mode prec rest with
        | error e =>
            exact Or.inl ⟨e, hr ▸ evalRelA_sound pr mode prec rest, by simp [evalArgs, ha, hr]⟩
        | ok vs =>
            exact Or.inr ⟨vs, hr ▸ evalRelA_sound pr mode prec rest, by simp [evalArgs, ha, hr]⟩
end

/-- Helper for claim C9: when a prefix of an argument list evaluates
successfully and the next argument fails, the whole left-to-right list
evaluation fails with exactly that error, whatever follows the failing
argument. -/
theorem evalArgs_append_error (pr : Prims) (mode : Mode) (prec : ℕ) :
    ∀ (xs : PyArgs) (vs : List Value) (a : PyExpr) (e : Err) (ys : PyArgs),
      evalArgs pr mode prec xs = .ok vs → evalNode pr mode prec a = .error e →
      evalArgs pr mode prec (xs.append (.cons a ys)) = .error e
  | .nil, vs, a, e, ys, hxs, ha => by
      simp only [PyArgs.append, evalArgs, ha]
  | .cons x xs, vs, a, e, ys, hxs, ha => by
      simp only [evalArgs] at hxs
      cases hx : evalNode pr mode prec x with
      | error e2 => rw [hx] at hxs; exact absurd hxs (by simp)
      | ok v =>
        rw [hx] at hxs
        cases hrest : evalArgs pr mode prec xs with
        | error e2 => rw [hrest] at hxs; exact absurd hxs (by simp)
        | ok ws =>
            simp only [PyArgs.append, evalArgs, hx,
              evalArgs_append_error pr mode prec xs ws a e ys hrest ha]

/-- Claim C1 (corrected), counterexample: the input `a.b` — an attribute
access, which the host parser accepts as an expression in eval mode — is
rejected not by the parser but by the evaluator: the structural
fall-through of `_eval` (line 217) produces the generic
`EvalError("Ungültiger Ausdruck")`.  The parse-stage rejection (`synError`,
the fate of non-expressions such as `x = 1`) is a different condition, and
no separate `ParseError` class exists in the program.  This refutes the
claim that such inputs yield a `ParseError` produced structurally by the
parser rather than by a downstream evaluator check. -/
theorem c1_parser_rejection_counterexample :
    evalNode defaultPrims Mode.float 28 (.attribute (.name "a") "b") = .error .invalidExpr ∧
    eval_expr defaultPrims (.expr (.attribute (.name "a") "b")) .float none = .error .invalidExpr ∧
    Err.invalidExpr ≠ Err.synError := by
  refine ⟨by simp only [evalNode], by simp only [eval_expr, evalNode], by decide⟩

/-- Claim C1 (corrected), amended: every input containing one of the four
constructs yields an error and never a computed value, in every mode and at
every precision — but the rejection site and error class differ from the
claim: an assignment is not an expression and fails at the parse stage
(`EvalError "Syntaxfehler"`), while a string literal, an attribute access
and an indexing expression parse successfully and are rejected structurally
by the evaluator's closed dispatch (`EvalError` with message "Nur Zahlen
als Konstanten erlaubt" resp. "Ungültiger Ausdruck"), a downstream
evaluator check. -/
theorem c1_structural_rejection_amended (pr : Prims) (mode : Mode) (p : Option ℕ) :
    eval_expr pr .synErr mode p = .error .synError ∧
    eval_expr pr (.expr (.strConst "abc")) mode p = .error .nonNumberConst ∧
    eval_expr pr (.expr (.attribute (.name "a") "b")) mode p = .error .invalidExpr ∧
    eval_expr pr (.expr (.subscript (.name "a") (.intConst 0))) mode p = .error .invalidExpr := by
  refine ⟨rfl, ?_, ?_, ?_⟩ <;> simp only [eval_expr, evalNode]

/-- Claim C2 (corrected), counterexample: evaluating `0/0` in decimal mode
is a division whose right operand is zero, yet it does not yield the
distinct division-by-zero condition.  `Decimal(0) / Decimal(0)` raises
`decimal.InvalidOperation`, which is not a subclass of
`ZeroDivisionError`, so the `except ZeroDivisionError: raise` of `_eval`
(lines 180-181) does not fire; the generic handler coerces and retries
(lines 183-187), fails identically, and line 189 wraps the failure as the
generic `EvalError(str(e))` (`opFailed`) — folded into exactly the
category the claim forbids. -/
theorem c2_division_by_zero_counterexample :
    eval_expr defaultPrims (.expr (.binOp .div (.intConst 0) (.intConst 0))) .decimal none
      = .error .opFailed ∧
    Err.opFailed ≠ Err.divisionByZero ∧
    Err.isEvalError .opFailed = true := by
  refine ⟨?_, by decide, rfl⟩
  simp only [eval_expr, evalNode]
  rfl

/-- Claim C2 (corrected), amended: every division whose right operand is
zero yields the distinct division-by-zero condition (`ZeroDivisionError`,
of which decimal's `DivisionByZero` is a subclass, re-raised untouched by
the binary-operator handler and not an `EvalError`, so a caller can match
it specifically) — except for `0/0` in decimal mode, where the decimal
back-end raises `InvalidOperation` instead and the handler folds it into
the generic `EvalError` after the coercion retry.  Stated generally over
all operand values of the tags evaluation produces in each mode, and
concretely for the expressions `1/0` (all modes) and `0/0` (all modes). -/
theorem c2_division_by_zero_amended :
    (∀ (pr : Prims) (mode : Mode) (l r : Value),
        TagInMode mode l → TagInMode mode r → toQ r = 0 →
        ¬ (mode = .decimal ∧ toQ l = 0) →
        applyBinOp pr mode .div l r = .error .divisionByZero) ∧
    (∀ (pr : Prims) (l r : Value),
        TagInMode .decimal l → TagInMode .decimal r → toQ l = 0 → toQ r = 0 →
        applyBinOp pr .decimal .div l r = .error .opFailed) ∧
    (∀ (pr : Prims) (mode : Mode) (p : Option ℕ),
        eval_expr pr (.expr (.binOp .div (.intConst 1) (.intConst 0))) mode p
          = .error .divisionByZero) ∧
    (∀ (pr : Prims) (p : Option ℕ),
        eval_expr pr (.expr (.binOp .div (.intConst 0) (.intConst 0))) .float p
          = .error .divisionByZero ∧
        eval_expr pr (.expr (.binOp .div (.intConst 0) (.intConst 0))) .fraction p
          = .error .divisionByZero ∧
        eval_expr pr (.expr (.binOp .div (.intConst 0) (.intConst 0))) .decimal p
          = .error .opFailed) ∧
    Err.isEvalError .divisionByZero = false ∧
    Err.isEvalError .opFailed = true := by
  refine ⟨?_, ?_, ?_, ?_, rfl, rfl⟩
  · intro pr mode l r hl hr hrz hne
    cases mode with
    | float =>
        cases l with
        | floatV a =>
            cases r with
            | floatV b =>
                simp only [toQ] at hrz
                subst hrz
                rfl
            | decV q => exact hr.elim
            | fracV q => exact hr.elim
        | decV q => exact hl.elim
        | fracV q => exact hl.elim
    | fraction =>
        cases l with
        | decV q => exact hl.elim
        | floatV a =>
            cases r with
            | decV q => exact hr.elim
            | floatV b =>
                simp only [toQ] at hrz
                subst hrz
                rfl
            | fracV b =>
                simp only [toQ] at hrz
                subst hrz
                rfl
        | fracV a =>
            cases r with
            | decV q => exact hr.elim
            | floatV b =>
                simp only [toQ] at hrz
                subst hrz
                rfl
            | fracV b =>
                simp only [toQ] at hrz
                subst hrz
                rfl
    | decimal =>
        cases l with
        | floatV q => exact hl.elim
        | fracV q => exact hl.elim
        | decV a =>
            cases r with
            | floatV q => exact hr.elim
            | fracV q => exact hr.elim
            | decV b =>
                simp only [toQ] at hrz
                subst hrz
                have ha : ¬ a = 0 := fun h => hne ⟨rfl, by simp [toQ, h]⟩
                simp [applyBinOp, directApply, decArith, ha, Except.map]
  · intro pr l r hl hr hlz hrz
    cases l with
    | floatV q => exact hl.elim
    | fracV q => exact hl.elim
    | decV a =>
        cases r with
        | floatV q => exact hr.elim
        | fracV q => exact hr.elim
        | decV b =>
            simp only [toQ] at hlz hrz
            subst hlz
            subst hrz
            rfl
  · intro pr mode p
    cases mode <;> (simp only [eval_expr, evalNode]; rfl)
  · intro pr p
    refine ⟨?_, ?_, ?_⟩ <;> (simp only [eval_expr, evalNode]; rfl)

/-- Witness for the amended claim C2 at closed inputs: `1.0 / 0.0` in
float mode is the distinct division-by-zero error, while
`Decimal(0) / Decimal(0)` is the generic wrapped evaluation error. -/
theorem c2_division_by_zero_amended_witness :
    applyBinOp defaultPrims .float .div (.floatV 1) (.floatV 0) = .error .divisionByZero ∧
    applyBinOp defaultPrims .decimal .div (.decV 0) (.decV 0) = .error .opFailed := by
  constructor
  · exact c2_division_by_zero_amended.1 defaultPrims .float (.floatV 1) (.floatV 0)
      trivial trivial rfl (by simp)
  · exact c2_division_by_zero_amended.2.1 defaultPrims (.decV 0) (.decV 0)
      trivial trivial rfl rfl

/-- Claim C3 (confirmed): for operand values of the tags evaluation
produces in the active mode (`TagInMode`), the binary-operator application
of `_eval` (`applyBinOp`, lines 177-197) agrees with the specification's
native-then-coerce-retry-once contract (`applyBinOpSpec`): a successful
direct application is returned as-is with no coercion; division by zero
passes through; on any other direct failure the operands are coerced to the
active mode's canonical representation and the operator is retried exactly
once, a second failure of any kind surfacing as the typed evaluation error
`EvalError(str(e))` — no further retrying.  In float mode the source skips
the retry, which is observationally equal because float coercion is the
identity on float operands, so the single retry repeats the identical
failing application. -/
theorem c3_native_then_coerce_retry_once (pr : Prims) (mode : Mode) (op : BOp)
    (l r : Value) (hl : TagInMode mode l) (hr : TagInMode mode r) :
    applyBinOp pr mode op l r = applyBinOpSpec pr mode op l r := by
  cases mode with
  | decimal =>
      simp only [applyBinOp, applyBinOpSpec, toCanon]
  | fraction =>
      simp only [applyBinOp, applyBinOpSpec, toCanon]
  | float =>
      cases l with
      | floatV a =>
        cases r with
        | floatV b =>
            simp only [applyBinOp, applyBinOpSpec, toCanon, toQ]
            cases hd : directApply pr op (.floatV a) (.floatV b) with
            | ok v => rfl
            | error e => cases e <;> rfl
        | decV q => exact hr.elim
        | fracV q => exact hr.elim
      | decV q => exact hl.elim
      | fracV q => exact hl.elim

/-- Witness for claim C3 at a closed input: float mode, `1 / 0`. -/
theorem c3_native_then_coerce_retry_once_witness :
    applyBinOp defaultPrims .float .div (.floatV 1) (.floatV 0) =
      applyBinOpSpec defaultPrims .float .div (.floatV 1) (.floatV 0) :=
  c3_native_then_coerce_retry_once defaultPrims .float .div (.floatV 1) (.floatV 0)
    trivial trivial

/-- Claim C4 (confirmed): in fraction ("Rational") mode only `abs`, `max`,
`min`, `pow` are implemented; `pow` demands an integral exponent
(denominator 1) and otherwise raises the explicit
`EvalError("pow mit nicht-ganzzahligem Exponenten ...")` — the
unsupported-in-mode condition the spec names `UnsupportedInModeError` — so
`pow(2, 0.5)` is exactly that error while `pow(2, 3)` is the exact integer
8; every other whitelisted function name (`sin`, `cos`, `tan`, `log`,
`ln`, `sqrt`) raises the explicit `EvalError("Funktion ... nicht im
Fraction-Modus unterstützt")` for every argument list, never a silently
approximated value. -/
theorem c4_rational_mode_function_policy :
    (∀ (pr : Prims) (p : Option ℕ),
        eval_expr pr (.expr (.call (.name "pow")
          (.cons (.intConst 2) (.cons (.floatConst (1/2)) .nil)))) .fraction p
          = .error .powNonIntegral) ∧
    (∀ (pr : Prims) (p : Option ℕ),
        eval_expr pr (.expr (.call (.name "pow")
          (.cons (.intConst 2) (.cons (.intConst 3) .nil)))) .fraction p
          = .ok (.fracV 8)) ∧
    Err.isEvalError .powNonIntegral = true ∧
    Err.isEvalError (.unsupportedInFractionMode "sin") = true ∧
    (∀ (pr : Prims) (prec : ℕ) (args : List Value),
        callFunction pr .fraction prec "sin" args = .error (.unsupportedInFractionMode "sin")) ∧
    (∀ (pr : Prims) (prec : ℕ) (args : List Value),
        callFunction pr .fraction prec "cos" args = .error (.unsupportedInFractionMode "cos")) ∧
    (∀ (pr : Prims) (prec : ℕ) (args : List Value),
        callFunction pr .fraction prec "tan" args = .error (.unsupportedInFractionMode "tan")) ∧
    (∀ (pr : Prims) (prec : ℕ) (args : List Value),
        callFunction pr .fraction prec "log" args = .error (.unsupportedInFractionMode "log")) ∧
    (∀ (pr : Prims) (prec : ℕ) (args : List Value),
        callFunction pr .fraction prec "ln" args = .error (.unsupportedInFractionMode "ln")) ∧
    (∀ (pr : Prims) (prec : ℕ) (args : List Value),
        callFunction pr .fraction prec "sqrt" args = .error (.unsupportedInFractionMode "sqrt")) := by
  refine ⟨?_, ?_, rfl, rfl, ?_, ?_, ?_, ?_, ?_, ?_⟩
  · intro pr p
    simp only [eval_expr, evalNode, evalArgs]
    rfl
  · intro pr p
    simp only [eval_expr, evalNode, evalArgs]
    rfl
  all_goals intro pr prec args
  all_goals rfl

/-- Claim C5 (code_bug): in decimal mode both `max` and `min` evaluate to
`max(args)` (line 147), so `min(2, 3)` returns 3, the greatest argument,
while the claim (and the function's own name and `_MATH_FUNCS` binding)
demand the least, 2.  `max` itself is correct, comparing the decimal
argument values directly. -/
theorem c5_decimal_min_returns_max (pr : Prims) (p : Option ℕ) :
    eval_expr pr (.expr (.call (.name "min")
      (.cons (.intConst 2) (.cons (.intConst 3) .nil)))) .decimal p = .ok (.decV 3) ∧
    eval_expr pr (.expr (.call (.name "max")
      (.cons (.intConst 2) (.cons (.intConst 3) .nil)))) .decimal p = .ok (.decV 3) ∧
    (Value.decV 3 ≠ Value.decV 2) := by
  refine ⟨?_, ?_, by decide⟩ <;> (simp only [eval_expr, evalNode, evalArgs]; rfl)

/-- Claim C6 (code_bug): `_to_fraction` (lines 59-72) rebuilds a fraction
from `as_tuple().digits` and `as_tuple().exponent` only — the sign bit is
never read.  For non-negative decimals the reconstruction is exact (first
conjunct, for the digit form of `Decimal("1.5")`), but for
`Decimal("-1.5")` — digit form sign=1, digits=(1,5), exponent=-1 — the code
returns `3/2` while the decimal's value is `-3/2`: the resulting fraction
is not equal to the decimal it was converted from. -/
theorem c6_to_fraction_drops_sign :
    Dec.toFraction ⟨false, [1, 5], -1⟩ = Dec.value ⟨false, [1, 5], -1⟩ ∧
    Dec.toFraction ⟨true, [1, 5], -1⟩ = 3 / 2 ∧
    Dec.value ⟨true, [1, 5], -1⟩ = -(3 / 2) ∧
    ((3 : ℚ) / 2 ≠ -(3 / 2)) := by
  exact ⟨by decide, by decide, by decide, by decide⟩

/-- Claim C7 (code_bug): decimal evaluation is not bound to the
caller-supplied precision.  `eval_expr` builds `ctx` with `ctx.prec =
precision`, but `_to_decimal` ignores its `ctx` parameter and the operator
applications of `_eval` run under the unmodified process-global context, so
`1/7` at caller precision 5 is rounded to the global 28 significant digits
(first conjunct); rounding under the active precision 5 — what the claim
requires — would give `0.14286` (second conjunct), a different value (third
conjunct).  Only `ctx.sqrt` consults the supplied precision. -/
theorem c7_precision_not_bound (pr : Prims) :
    eval_expr pr (.expr (.binOp .div (.intConst 1) (.intConst 7))) .decimal (some 5)
      = .ok (.decV (1428571428571428571428571429 / 10 ^ 28)) ∧
    roundQ 5 (1 / 7) = 14286 / 10 ^ 5 ∧
    ((1428571428571428571428571429 : ℚ) / 10 ^ 28 ≠ 14286 / 10 ^ 5) := by
  refine ⟨?_, by decide, by decide⟩
  simp only [eval_expr, evalNode]
  rfl

/-- Claim C8 (corrected), counterexample: `sin(1, 2)` in float mode — a
wrong argument count — escapes as a raw host `TypeError` from `math.sin`
(the wrapper calls `func(*args)` with no arity check, line 156), which is
not an instance of the program's `EvalError` class: there is no
`ArityOrTypeError` classification in the program. -/
theorem c8_arity_counterexample :
    eval_expr defaultPrims (.expr (.call (.name "sin")
      (.cons (.intConst 1) (.cons (.intConst 2) .nil)))) .float none
      = .error .hostTypeError ∧
    Err.isEvalError .hostTypeError = false := by
  refine ⟨?_, rfl⟩
  simp only [eval_expr, evalNode, evalArgs]
  decide

/-- Claim C8 (corrected), amended: wrong argument counts are not classified
at all.  Depending on mode and function they either escape as raw host
faults — `TypeError` from `math.sin` in float mode, `ValueError` from tuple
unpacking for `pow(1,2,3)` in fraction mode, `IndexError` from `args[0]`
for `sqrt()` in decimal mode — or are silently tolerated: `sin(1, 2)` in
decimal mode ignores the extra argument and returns `sin(1)`.  None of
these host faults is an `EvalError`. -/
theorem c8_arity_faults_amended (pr : Prims) (p : Option ℕ) :
    eval_expr pr (.expr (.call (.name "sin")
      (.cons (.intConst 1) (.cons (.intConst 2) .nil)))) .float p
      = .error .hostTypeError ∧
    eval_expr pr (.expr (.call (.name "sin")
      (.cons (.intConst 1) (.cons (.intConst 2) .nil)))) .decimal p
      = .ok (.decV (pr.sinF 1)) ∧
    eval_expr pr (.expr (.call (.name "pow")
      (.cons (.intConst 1) (.cons (.intConst 2) (.cons (.intConst 3) .nil))))) .fraction p
      = .error .hostValueError ∧
    eval_expr pr (.expr (.call (.name "sqrt") .nil)) .decimal p
      = .error .hostIndexError ∧
    Err.isEvalError .hostTypeError = false ∧
    Err.isEvalError .hostValueError = false ∧
    Err.isEvalError .hostIndexError = false := by
  refine ⟨?_, ?_, ?_, ?_, rfl, rfl, rfl⟩
  · simp only [eval_expr, evalNode, evalArgs]
    rfl
  · simp only [eval_expr, evalNode, evalArgs]
    simp [isMathFunc, callFunction, convertNumber, toQ]
  · simp only [eval_expr, evalNode, evalArgs]
    rfl
  · simp only [eval_expr, evalNode, evalArgs]
    rfl

/-- Claim C9 (confirmed): evaluation is left to right with short-circuit on
failure.  For a supported binary operator, if the left subtree fails with
`e` then the whole node fails with exactly `e`, and the result does not
depend on the right subtree at all (it is never evaluated); likewise, for a
registered function, if a prefix of the arguments succeeds and the next
argument fails with `e` then the call fails with exactly `e`, independently
of every argument after the failing one. -/
theorem c9_left_to_right_short_circuit :
    (∀ (pr : Prims) (mode : Mode) (prec : ℕ) (op : BOp) (l r r' : PyExpr) (e : Err),
        opSupported op = true →
        evalNode pr mode prec l = .error e →
        evalNode pr mode prec (.binOp op l r) = .error e ∧
        evalNode pr mode prec (.binOp op l r) = evalNode pr mode prec (.binOp op l r')) ∧
    (∀ (pr : Prims) (mode : Mode) (prec : ℕ) (f : String) (xs : PyArgs) (vs : List Value)
        (a : PyExpr) (e : Err) (ys ys' : PyArgs),
        isMathFunc f = true →
        evalArgs pr mode prec xs = .ok vs →
        evalNode pr mode prec a = .error e →
        evalNode pr mode prec (.call (.name f) (xs.append (.cons a ys))) = .error e ∧
        evalNode pr mode prec (.call (.name f) (xs.append (.cons a ys))) =
          evalNode pr mode prec (.call (.name f) (xs.append (.cons a ys')))) := by
  constructor
  · intro pr mode prec op l r r' e hop hl
    constructor
    · simp [evalNode, hop, hl]
    · simp [evalNode, hop, hl]
  · intro pr mode prec f xs vs a e ys ys' hf hxs ha
    have h1 := evalArgs_append_error pr mode prec xs vs a e ys hxs ha
    have h2 := evalArgs_append_error pr mode prec xs vs a e ys' hxs ha
    constructor
    · simp [evalNode, hf, h1]
    · simp [evalNode, hf, h1, h2]

/-- Witness for claim C9 at closed inputs: `unknown_name + 1` in float mode
fails with the left subtree's `UnknownName` error whatever the right
operand is, and `max(1, unknown_name, 2)` fails with the same error
whatever follows the failing argument. -/
theorem c9_left_to_right_short_circuit_witness :
    (evalNode defaultPrims .float 28 (.binOp .add (.name "u") (.intConst 1))
        = .error (.unknownName "u") ∧
     evalNode defaultPrims .float 28 (.binOp .add (.name "u") (.intConst 1))
        = evalNode defaultPrims .float 28 (.binOp .add (.name "u") (.intConst 2))) ∧
    (evalNode defaultPrims .float 28 (.call (.name "max")
        ((PyArgs.cons (.intConst 1) .nil).append
          (.cons (.name "u") (.cons (.intConst 2) .nil)))) = .error (.unknownName "u") ∧
     evalNode defaultPrims .float 28 (.call (.name "max")
        ((PyArgs.cons (.intConst 1) .nil).append
          (.cons (.name "u") (.cons (.intConst 2) .nil)))) =
       evalNode defaultPrims .float 28 (.call (.name "max")
        ((PyArgs.cons (.intConst 1) .nil).append (.cons (.name "u") .nil)))) := by
  refine ⟨c9_left_to_right_short_circuit.1 defaultPrims .float 28 .add (.name "u")
      (.intConst 1) (.intConst 2) (.unknownName "u") rfl ?_,
    c9_left_to_right_short_circuit.2 defaultPrims .float 28 "max"
      (.cons (.intConst 1) .nil) [.floatV 1] (.name "u") (.unknownName "u")
      (.cons (.intConst 2) .nil) .nil rfl ?_ ?_⟩
  · simp only [evalNode]; decide
  · simp only [evalArgs, evalNode]; decide
  · simp only [evalNode]; decide

/-- Claim C10 (confirmed): the evaluator is deterministic.  Any two results
of the big-step evaluation relation for the same expression, numeric mode,
precision and (immutable) primitive table are equal; by `evalRelE_sound`
the relation is realised by `evalNode`, so evaluating the same expression
twice with the same mode and precision and no intervening registry
mutation yields identical results. -/
theorem c10_evaluator_deterministic (pr : Prims) (mode : Mode) (prec : ℕ)
    (e : PyExpr) (r1 r2 : Except Err Value)
    (h1 : EvalRelE pr mode prec e r1) (h2 : EvalRelE pr mode prec e r2) : r1 = r2 :=
  evalRelE_det pr mode prec e r1 r2 h1 h2

/-- Witness for claim C10 at a closed input: two evaluations of `2 + 3` in
float mode both yield `5.0`. -/
theorem c10_evaluator_deterministic_witness :
    (Except.ok (Value.floatV 5) : Except Err Value) = .ok (.floatV 5) := by
  have hs : evalNode defaultPrims .float 28 (.binOp .add (.intConst 2) (.intConst 3))
      = .ok (.floatV 5) := by
    simp only [evalNode]; decide
  exact c10_evaluator_deterministic defaultPrims .float 28
    (.binOp .add (.intConst 2) (.intConst 3)) _ _
    (hs ▸ evalRelE_sound defaultPrims .float 28 _)
    (hs ▸ evalRelE_sound defaultPrims .float 28 _)

end Cal
